import Mathlib

/-!
# Verification of the NFS-e withholding analyzer core

Shallow embedding of the two-stage pipeline in `streamlit_app.py`:

* `clean_currency` — lenient Brazilian-format currency normalization
  (source lines 61-69);
* `extract_data_from_pdf` — anchor-based field extraction from page text
  (source lines 30-59; pages are modelled as lists of lines, since PDF
  text decoding is an external collaborator per the spec);
* `calcular_impostos_finais` — fixed-rate tax aggregation over the
  extracted withholding records (source lines 71-89).

Python floats are modelled as exact rationals (`ℚ`); Python dicts with
string keys are modelled as functions `String → _` built by overwriting
updates, mirroring dict-assignment semantics. Python's `str.strip` and
`str.lower` are modelled by structurally recursive character-list
operations (`pyStrip`, `pyLower`).
-/

namespace NFS

/-! ## Currency normalization (`clean_currency`, source lines 61-69) -/

/-- Characters matched by the Python regex class `[\d\.,]`. -/
def isCurrencyChar (c : Char) : Bool :=
  c.isDigit || c == '.' || c == ','

/-- `re.search(r'[\d\.,]+', text)`: the first maximal run of digit, period
and comma characters, or `none` when no such character occurs. -/
def firstRun (cs : List Char) : Option (List Char) :=
  match cs.dropWhile (fun c => !isCurrencyChar c) with
  | [] => none
  | c :: rest => some ((c :: rest).takeWhile isCurrencyChar)

/-- Value of a list of decimal digit characters. -/
def digitsToNat (cs : List Char) : Nat :=
  cs.foldl (fun a c => 10 * a + (c.toNat - 48)) 0

/-- Whether Python `float(s)` succeeds on a string over the alphabet of
digits and periods: at least one digit, at most one period, nothing else. -/
def goodFloat (cs : List Char) : Bool :=
  cs.any (fun c => c.isDigit) && decide (cs.count '.' ≤ 1) &&
    cs.all (fun c => c.isDigit || c == '.')

/-- Exact value of a well-formed decimal literal `intpart.fracpart`:
the integer `intpart fracpart` read as digits, divided by
`10 ^ length fracpart`. -/
def floatVal (cs : List Char) : ℚ :=
  let ip := cs.takeWhile (fun c => c ≠ '.')
  let fp := (cs.dropWhile (fun c => c ≠ '.')).drop 1
  mkRat (digitsToNat ip * 10 ^ fp.length + digitsToNat fp) (10 ^ fp.length)

/-- Python `float(s)` restricted to the digit/period alphabet produced by
`clean_currency`: `none` models a raised `ValueError`. -/
def parseFloatQ (cs : List Char) : Option ℚ :=
  if goodFloat cs then some (floatVal cs) else none

/-- `value_str.replace(',', '.')` acts on every comma. -/
def toDotChar (c : Char) : Char :=
  if c = ',' then '.' else c

/-- `clean_currency(text)` (source lines 61-69): `0.0` for an absent or
empty input; otherwise take the first run of digit/period/comma
characters, strip the periods, turn the commas into periods, and parse as
a float, returning `0.0` on a failed parse or when no run exists. -/
def clean_currency (text : Option String) : ℚ :=
  match text with
  | none => 0
  | some s =>
    if s = "" then 0
    else
      match firstRun s.data with
      | none => 0
      | some run =>
        let value_str := (run.filter (fun c => c ≠ '.')).map toDotChar
        (parseFloatQ value_str).getD 0

/-- Replace only the first comma by a period (the spec's wording of the
comma step in §4.1). -/
def replaceFirstComma : List Char → List Char
  | [] => []
  | c :: cs => if c = ',' then '.' :: cs else c :: replaceFirstComma cs

/-- Currency normalization exactly as worded by the spec: identical to
`clean_currency` except that only the *first* remaining comma is replaced
by a decimal point. -/
def clean_currency_spec (text : Option String) : ℚ :=
  match text with
  | none => 0
  | some s =>
    if s = "" then 0
    else
      match firstRun s.data with
      | none => 0
      | some run =>
        let value_str := replaceFirstComma (run.filter (fun c => c ≠ '.'))
        (parseFloatQ value_str).getD 0

/-! ## Field extraction (`extract_data_from_pdf`, source lines 30-59) -/

/-- Python `str.strip()`: drop whitespace from both ends. -/
def pyStrip (s : String) : String :=
  ⟨((s.data.dropWhile Char.isWhitespace).reverse.dropWhile Char.isWhitespace).reverse⟩

/-- Python `str.lower()`. -/
def pyLower (s : String) : String :=
  ⟨s.data.map Char.toLower⟩

/-- Line 47 of the source: `anchor.strip().lower() == line.strip().lower()`. -/
def anchorMatches (anchor line : String) : Bool :=
  pyLower (pyStrip anchor) == pyLower (pyStrip line)

/-- The `anchor_map` dict of source lines 35-40, in insertion order. -/
def anchor_map : List (String × String) :=
  [("numero_nota", "Número da NFS-e"),
   ("data_emissao", "Data e Hora de Emissão da NFS-e"),
   ("cnpj_tomador", "CPF/CNPJ/Documento"),
   ("razao_social_tomador", "Nome/Razão Social"),
   ("iss_retido_check", "ISS Retido"),
   ("valor_iss", "Total do ISS"),
   ("valor_pis", "PIS"),
   ("valor_cofins", "COFINS"),
   ("valor_csll", "CSLL"),
   ("valor_irrf", "IRRF"),
   ("valor_inss", "INSS")]

/-- Dict assignment `invoice_data[key] = v`: overwrite the value at `key`. -/
def updateField (m : String → Option String) (k v : String) : String → Option String :=
  fun q => if q = k then some v else m q

/-- The guard of source line 47 at line index `i`: the anchor matches line
`i` (trimmed, case-folded equality) and a next line `i + 1` exists. -/
def matchLineAt (lines : List String) (anchor : String) (i : Nat) : Bool :=
  anchorMatches anchor (lines.getD i "") && decide (i + 1 < lines.length)

/-- One iteration of the outer loop of source lines 45-48: try every
`(key, anchor)` pair against line `i`, overwriting `invoice_data[key]`
with the stripped next line on a match. -/
def scanStep (anchors : List (String × String)) (lines : List String)
    (m : String → Option String) (i : Nat) : String → Option String :=
  anchors.foldl (fun acc ka =>
    if matchLineAt lines ka.2 i
    then updateField acc ka.1 (pyStrip (lines.getD (i + 1) ""))
    else acc) m

/-- The `invoice_data` dict built by the loop of source lines 45-48,
starting from the empty dict. -/
def scanPage (anchors : List (String × String)) (lines : List String) :
    String → Option String :=
  (List.range lines.length).foldl (scanStep anchors lines) (fun _ => none)

/-- One per-page record of the extractor output (source lines 56-58). -/
structure Withholding where
  pis : ℚ
  cofins : ℚ
  csll : ℚ
  irrf : ℚ
  inss : ℚ
  iss : ℚ
deriving DecidableEq, Repr

/-- `clean_currency(invoice_data.get(key))` for one page (source lines 50-52). -/
def parsedField (lines : List String) (k : String) : ℚ :=
  clean_currency (scanPage anchor_map lines k)

/-- Source line 53: `'1' in invoice_data.get('iss_retido_check', '')`. -/
def issFlag (lines : List String) : Bool :=
  ((scanPage anchor_map lines "iss_retido_check").getD "").data.contains '1'

/-- Processing of one page (source lines 44-58): parse the six currency
fields, compute the ISS-withheld flag, zero out ISS unless the flag is
set, and emit a record exactly when some amount other than ISS is
positive or the flag is set. -/
def processPage (lines : List String) : Option Withholding :=
  let pis := parsedField lines "valor_pis"
  let cofins := parsedField lines "valor_cofins"
  let csll := parsedField lines "valor_csll"
  let irrf := parsedField lines "valor_irrf"
  let inss := parsedField lines "valor_inss"
  let iss := parsedField lines "valor_iss"
  let iss_retido := issFlag lines
  let valor_final_iss := if iss_retido then iss else 0
  if pis > 0 ∨ cofins > 0 ∨ csll > 0 ∨ irrf > 0 ∨ inss > 0 ∨ iss_retido = true then
    some ⟨pis, cofins, csll, irrf, inss, valor_final_iss⟩
  else none

/-- `extract_data_from_pdf` over an already-decoded document: one record
per qualifying page, in page order (source lines 41-59). -/
def extract_data_from_pdf (pages : List (List String)) : List Withholding :=
  pages.filterMap processPage

/-- The spec's §4.1 description of anchor resolution for one key: the
*last* line index whose trimmed, case-folded content equals the anchor
and which has a next line wins, and the trimmed next line is recorded. -/
def lastMatchSpec (lines : List String) (anchor : String) : Option String :=
  (((List.range lines.length).filter (matchLineAt lines anchor)).getLast?).map
    (fun i => pyStrip (lines.getD (i + 1) ""))

/-! ## Tax calculation (`calcular_impostos_finais`, source lines 71-89) -/

/-- One line of `resultado_final` (source lines 85-88). The rate is kept
as its numeric value rather than the percent-formatted display string. -/
structure TaxLine where
  aliquota : ℚ
  valor_bruto : ℚ
  total_retido : ℚ
  valor_liquido : ℚ
deriving DecidableEq, Repr

/-- The `ALIQUOTAS` dict of source line 73, in insertion order. -/
def ALIQUOTAS : List (String × ℚ) :=
  [("PIS", 0.0065), ("COFINS", 0.03), ("IRPJ", 0.012), ("CSLL", 0.0108), ("ISS", 0.05)]

/-- The `total_retencoes` dict of source lines 74-78 together with the
`.get(chave, 0.0)` access of line 83: the six per-kind sums, `0.0` for
any other key. -/
def total_retencoes (dados : List Withholding) : String → ℚ := fun k =>
  if k = "PIS" then (dados.map (fun n => n.pis)).sum
  else if k = "COFINS" then (dados.map (fun n => n.cofins)).sum
  else if k = "CSLL" then (dados.map (fun n => n.csll)).sum
  else if k = "IRRF" then (dados.map (fun n => n.irrf)).sum
  else if k = "INSS" then (dados.map (fun n => n.inss)).sum
  else if k = "ISS" then (dados.map (fun n => n.iss)).sum
  else 0

/-- `calcular_impostos_finais` (source lines 71-89): for each rated kind
in `ALIQUOTAS` order, gross `= faturamento * aliquota`, withheld read at
key `IRRF` for `IRPJ` and at the kind's own key otherwise, net
`= gross - withheld`; the INSS sum is returned separately. -/
def calcular_impostos_finais (dados_extraidos : List Withholding)
    (faturamento_mensal : ℚ) : List (String × TaxLine) × ℚ :=
  (ALIQUOTAS.map (fun ia =>
    let valor_bruto := faturamento_mensal * ia.2
    let chave_retencao := if ia.1 = "IRPJ" then "IRRF" else ia.1
    let total_retido := total_retencoes dados_extraidos chave_retencao
    (ia.1, ⟨ia.2, valor_bruto, total_retido, valor_bruto - total_retido⟩)),
   total_retencoes dados_extraidos "INSS")

/-- The spec's §4.1 aliasing rule for the withheld total of a rated kind:
`IRPJ` reads the `IRRF` sum, the other four kinds read their own-named
sum. -/
def specWithheld (k : String) (dados : List Withholding) : ℚ :=
  if k = "IRPJ" then (dados.map (fun n => n.irrf)).sum
  else if k = "PIS" then (dados.map (fun n => n.pis)).sum
  else if k = "COFINS" then (dados.map (fun n => n.cofins)).sum
  else if k = "CSLL" then (dados.map (fun n => n.csll)).sum
  else if k = "ISS" then (dados.map (fun n => n.iss)).sum
  else 0

/-! ## Calculator lemmas -/

/-- Closed form of `calcular_impostos_finais`: the five tax lines in
`ALIQUOTAS` order with the aliasing rule resolved, plus the INSS sum. -/
lemma calcular_eq (dados : List Withholding) (fat : ℚ) :
    calcular_impostos_finais dados fat =
      ([("PIS", ⟨0.0065, fat * 0.0065, (dados.map (fun n => n.pis)).sum,
          fat * 0.0065 - (dados.map (fun n => n.pis)).sum⟩),
        ("COFINS", ⟨0.03, fat * 0.03, (dados.map (fun n => n.cofins)).sum,
          fat * 0.03 - (dados.map (fun n => n.cofins)).sum⟩),
        ("IRPJ", ⟨0.012, fat * 0.012, (dados.map (fun n => n.irrf)).sum,
          fat * 0.012 - (dados.map (fun n => n.irrf)).sum⟩),
        ("CSLL", ⟨0.0108, fat * 0.0108, (dados.map (fun n => n.csll)).sum,
          fat * 0.0108 - (dados.map (fun n => n.csll)).sum⟩),
        ("ISS", ⟨0.05, fat * 0.05, (dados.map (fun n => n.iss)).sum,
          fat * 0.05 - (dados.map (fun n => n.iss)).sum⟩)],
       (dados.map (fun n => n.inss)).sum) := by
  simp [calcular_impostos_finais, ALIQUOTAS, total_retencoes]

/-- C1:  For revenue 100000.00 and the single record
`{PIS 10, COFINS 20, CSLL 5, IRRF 15, INSS 8, ISS 50}`,
`calcular_impostos_finais` returns PIS 650.00/640.00,
COFINS 3000.00/2980.00, IRPJ 1200.00/1185.00 (withheld read from the
IRRF sum of 15), CSLL 1080.00/1075.00, ISS 5000.00/4950.00 (gross/net),
and the separately returned INSS total 8.00. -/
theorem calc_end_to_end_example :
    calcular_impostos_finais [⟨10, 20, 5, 15, 8, 50⟩] 100000 =
      ([("PIS", ⟨0.0065, 650, 10, 640⟩),
        ("COFINS", ⟨0.03, 3000, 20, 2980⟩),
        ("IRPJ", ⟨0.012, 1200, 15, 1185⟩),
        ("CSLL", ⟨0.0108, 1080, 5, 1075⟩),
        ("ISS", ⟨0.05, 5000, 50, 4950⟩)], 8) := by
  rw [calcular_eq]
  norm_num

/-- C2:  For every record sequence and revenue, each emitted tax line
resolves its withheld total by the aliasing rule (`IRPJ` reads the
`IRRF` sum, the others read their own-named sum, as captured by
`specWithheld`), and its net equals its gross minus that withheld
total. -/
theorem calc_aliasing_rule (dados : List Withholding) (fat : ℚ)
    (p : String × TaxLine) (hp : p ∈ (calcular_impostos_finais dados fat).1) :
    p.2.total_retido = specWithheld p.1 dados ∧
      p.2.valor_liquido = p.2.valor_bruto - p.2.total_retido := by
  rw [calcular_eq] at hp
  simp only [List.mem_cons, List.not_mem_nil, or_false] at hp
  rcases hp with h | h | h | h | h <;> subst h <;> simp [specWithheld]

/-- Witness for C2: the PIS line of the empty-records, zero-revenue run. -/
theorem calc_aliasing_rule_witness :
    (("PIS", (⟨0.0065, (0 : ℚ) * 0.0065, 0, 0 * 0.0065 - 0⟩ : TaxLine)) :
        String × TaxLine).2.total_retido = specWithheld "PIS" [] ∧
      (("PIS", (⟨0.0065, (0 : ℚ) * 0.0065, 0, 0 * 0.0065 - 0⟩ : TaxLine)) :
        String × TaxLine).2.valor_liquido =
        (("PIS", (⟨0.0065, (0 : ℚ) * 0.0065, 0, 0 * 0.0065 - 0⟩ : TaxLine)) :
          String × TaxLine).2.valor_bruto -
        (("PIS", (⟨0.0065, (0 : ℚ) * 0.0065, 0, 0 * 0.0065 - 0⟩ : TaxLine)) :
          String × TaxLine).2.total_retido :=
  calc_aliasing_rule [] 0 _ (by rw [calcular_eq]; exact List.mem_cons_self _ _)

/-- C7:  For every revenue, the empty record sequence yields, per rated
kind (PIS 0.65%, COFINS 3%, IRPJ 1.2%, CSLL 1.08%, ISS 5%): withheld 0,
gross `= revenue * rate`, net `= gross`; and INSS total 0. -/
theorem calc_empty_records (fat : ℚ) :
    calcular_impostos_finais [] fat =
      ([("PIS", ⟨0.0065, fat * 0.0065, 0, fat * 0.0065⟩),
        ("COFINS", ⟨0.03, fat * 0.03, 0, fat * 0.03⟩),
        ("IRPJ", ⟨0.012, fat * 0.012, 0, fat * 0.012⟩),
        ("CSLL", ⟨0.0108, fat * 0.0108, 0, fat * 0.0108⟩),
        ("ISS", ⟨0.05, fat * 0.05, 0, fat * 0.05⟩)], 0) := by
  rw [calcular_eq]
  norm_num

/-- C8:  `calcular_impostos_finais` is invariant under permutation of
the input records: every gross, withheld and net value and the INSS
total are order-independent. -/
theorem calc_perm_invariant (dados dados' : List Withholding) (fat : ℚ)
    (h : dados.Perm dados') :
    calcular_impostos_finais dados fat = calcular_impostos_finais dados' fat := by
  have e1 : (dados.map (fun n => n.pis)).sum = (dados'.map (fun n => n.pis)).sum :=
    (h.map _).sum_eq
  have e2 : (dados.map (fun n => n.cofins)).sum = (dados'.map (fun n => n.cofins)).sum :=
    (h.map _).sum_eq
  have e3 : (dados.map (fun n => n.csll)).sum = (dados'.map (fun n => n.csll)).sum :=
    (h.map _).sum_eq
  have e4 : (dados.map (fun n => n.irrf)).sum = (dados'.map (fun n => n.irrf)).sum :=
    (h.map _).sum_eq
  have e5 : (dados.map (fun n => n.inss)).sum = (dados'.map (fun n => n.inss)).sum :=
    (h.map _).sum_eq
  have e6 : (dados.map (fun n => n.iss)).sum = (dados'.map (fun n => n.iss)).sum :=
    (h.map _).sum_eq
  rw [calcular_eq, calcular_eq, e1, e2, e3, e4, e5, e6]

/-- Witness for C8: swapping two concrete records changes nothing. -/
theorem calc_perm_invariant_witness :
    calcular_impostos_finais [⟨1, 2, 3, 4, 5, 6⟩, ⟨7, 8, 9, 10, 11, 12⟩] 100 =
      calcular_impostos_finais [⟨7, 8, 9, 10, 11, 12⟩, ⟨1, 2, 3, 4, 5, 6⟩] 100 :=
  calc_perm_invariant _ _ 100 (List.Perm.swap _ _ _)

/-- Pointwise-equal projections of `Forall₂`-related lists have equal
maps. -/
lemma map_eq_of_forall₂ {R : Withholding → Withholding → Prop}
    (f : Withholding → ℚ) (hf : ∀ a b, R a b → f a = f b) :
    ∀ {l l' : List Withholding}, List.Forall₂ R l l' → l.map f = l'.map f := by
  intro l l' h
  induction h with
  | nil => rfl
  | cons h₁ _ ih => simp only [List.map_cons, hf _ _ h₁, ih]

/-- C10:  Two record sequences that agree on every field except INSS
produce the same five-line summary; the INSS amounts influence only the
separately returned INSS total. -/
theorem calc_inss_noninterference (dados dados' : List Withholding) (fat : ℚ)
    (h : List.Forall₂ (fun a b => a.pis = b.pis ∧ a.cofins = b.cofins ∧
      a.csll = b.csll ∧ a.irrf = b.irrf ∧ a.iss = b.iss) dados dados') :
    (calcular_impostos_finais dados fat).1 = (calcular_impostos_finais dados' fat).1 := by
  have e1 := map_eq_of_forall₂ (fun n => n.pis) (fun a b hab => hab.1) h
  have e2 := map_eq_of_forall₂ (fun n => n.cofins) (fun a b hab => hab.2.1) h
  have e3 := map_eq_of_forall₂ (fun n => n.csll) (fun a b hab => hab.2.2.1) h
  have e4 := map_eq_of_forall₂ (fun n => n.irrf) (fun a b hab => hab.2.2.2.1) h
  have e6 := map_eq_of_forall₂ (fun n => n.iss) (fun a b hab => hab.2.2.2.2) h
  rw [calcular_eq, calcular_eq, e1, e2, e3, e4, e6]

/-- Witness for C10: records differing only in INSS give the same
summary. -/
theorem calc_inss_noninterference_witness :
    (calcular_impostos_finais [⟨1, 2, 3, 4, 5, 6⟩] 7).1 =
      (calcular_impostos_finais [⟨1, 2, 3, 4, 50, 6⟩] 7).1 :=
  calc_inss_noninterference _ _ 7
    (List.Forall₂.cons ⟨rfl, rfl, rfl, rfl, rfl⟩ List.Forall₂.nil)

/-! ## Currency normalization lemmas -/

/-- A comma-free list is unchanged by the comma-to-period map. -/
lemma map_toDot_of_no_comma {cs : List Char} (h : cs.count ',' = 0) :
    cs.map toDotChar = cs := by
  induction cs with
  | nil => rfl
  | cons c cs ih =>
    by_cases hc : c = ','
    · subst hc
      simp [List.count_cons] at h
    · have h' : cs.count ',' = 0 := by simpa [List.count_cons, hc] using h
      simp only [List.map_cons, toDotChar, if_neg hc, ih h']

/-- With at most one comma, replacing every comma and replacing the first
comma coincide. -/
lemma map_toDot_eq_replaceFirst {cs : List Char} (h : cs.count ',' ≤ 1) :
    cs.map toDotChar = replaceFirstComma cs := by
  induction cs with
  | nil => rfl
  | cons c cs ih =>
    by_cases hc : c = ','
    · subst hc
      have h0 : cs.count ',' = 0 := by
        simp only [List.count_cons_self] at h
        omega
      simp [List.map_cons, toDotChar, replaceFirstComma, map_toDot_of_no_comma h0]
    · have h' : cs.count ',' ≤ 1 := by
        have hcc : (c :: cs).count ',' = cs.count ',' := by
          simp [List.count_cons, hc]
        omega
      simp only [List.map_cons, toDotChar, if_neg hc, replaceFirstComma, ih h']

/-- Replacing every comma by a period adds the comma count to the period
count. -/
lemma count_dot_map_toDot (cs : List Char) :
    (cs.map toDotChar).count '.' = cs.count '.' + cs.count ',' := by
  induction cs with
  | nil => rfl
  | cons c cs ih =>
    by_cases hc : c = ','
    · subst hc
      simp [List.count_cons, toDotChar, ih]
      omega
    · by_cases hd : c = '.'
      · subst hd
        simp [List.count_cons, toDotChar, ih]
        omega
      · simp [List.count_cons, toDotChar, hc, hd, ih]

/-- Replacing the first comma removes exactly one comma. -/
lemma count_comma_replaceFirst (cs : List Char) :
    (replaceFirstComma cs).count ',' = cs.count ',' - 1 := by
  induction cs with
  | nil => rfl
  | cons c cs ih =>
    by_cases hc : c = ','
    · subst hc
      simp [replaceFirstComma, List.count_cons]
    · rw [show replaceFirstComma (c :: cs) = c :: replaceFirstComma cs from by
        simp [replaceFirstComma, hc]]
      have h1 : (c :: replaceFirstComma cs).count ',' = (replaceFirstComma cs).count ',' := by
        simp [List.count_cons, hc]
      have h2 : (c :: cs).count ',' = cs.count ',' := by
        simp [List.count_cons, hc]
      rw [h1, h2, ih]

/-- Parsing after replacing every comma equals parsing after replacing
only the first: with at most one comma the strings agree, with two or
more both parses fail. -/
lemma parseFloatQ_toDot_eq (cs : List Char) :
    parseFloatQ (cs.map toDotChar) = parseFloatQ (replaceFirstComma cs) := by
  by_cases h : cs.count ',' ≤ 1
  · rw [map_toDot_eq_replaceFirst h]
  · push_neg at h
    have hle : ¬ ((cs.map toDotChar).count '.' ≤ 1) := by
      rw [count_dot_map_toDot]
      omega
    have hmem : ',' ∈ replaceFirstComma cs := by
      have hcnt := count_comma_replaceFirst cs
      have hpos : 0 < (replaceFirstComma cs).count ',' := by omega
      exact List.count_pos_iff.mp hpos
    have hbad : ¬ ∀ x ∈ replaceFirstComma cs, x.isDigit = true ∨ x = '.' := by
      intro hall
      rcases hall ',' hmem with h1 | h2
      · exact absurd h1 (by decide)
      · exact absurd h2 (by decide)
    simp [parseFloatQ, goodFloat, hle, List.all_eq_true, hbad]

/-- C3:  `clean_currency` behaves exactly as the spec words it: it agrees
everywhere with the spec's replace-first-comma reading, returns `0.0` for
absent, empty or junk-only input, and satisfies the four concrete
examples (values are exact rationals: `1234.56` and `100.00`). -/
theorem clean_currency_matches_spec :
    (∀ t, clean_currency t = clean_currency_spec t) ∧
    (∀ s : String, s.data.all (fun c => !isCurrencyChar c) →
      clean_currency (some s) = 0) ∧
    clean_currency (some "1.234,56") = 1234.56 ∧
    clean_currency (some "100,00") = 100 ∧
    clean_currency (some "") = 0 ∧
    clean_currency (some "ISS Retido") = 0 ∧
    clean_currency none = 0 := by
  refine ⟨?_, ?_, ?_, by decide, by decide, by decide, by decide⟩
  · intro t
    cases t with
    | none => rfl
    | some s =>
      by_cases hs : s = ""
      · simp [clean_currency, clean_currency_spec, hs]
      · cases hfr : firstRun s.data with
        | none => simp [clean_currency, clean_currency_spec, hs, hfr]
        | some run =>
          simp [clean_currency, clean_currency_spec, hs, hfr, parseFloatQ_toDot_eq]
  · intro s hall
    by_cases hs : s = ""
    · simp [clean_currency, hs]
    · have hfr : firstRun s.data = none := by
        unfold firstRun
        have hnil : s.data.dropWhile (fun c => !isCurrencyChar c) = [] := by
          rw [List.dropWhile_eq_nil_iff]
          intro x hx
          exact List.all_eq_true.mp hall x hx
        rw [hnil]
      simp [clean_currency, hs, hfr]
  · have h : clean_currency (some "1.234,56") = mkRat 123456 100 := by decide
    rw [h, Rat.mkRat_eq_div]
    norm_num

/-- Witness for C3: a digit-free string normalizes to `0.0`. -/
theorem clean_currency_matches_spec_witness :
    clean_currency (some "abc") = 0 :=
  clean_currency_matches_spec.2.1 "abc" (by decide)

/-! ## Extractor claims C4 and C5 -/

/-- C4:  A page yields a record iff one of the parsed PIS, COFINS, CSLL,
IRRF, INSS amounts is strictly positive or the ISS-withheld flag is set
(the parsed ISS magnitude is irrelevant); concretely, a page with all
amounts zero and the flag unset (even with nonzero ISS amount)
contributes nothing, and a flag-only page yields the all-zero record. -/
theorem extract_record_iff :
    (∀ lines, (processPage lines).isSome = true ↔
      (0 < parsedField lines "valor_pis" ∨ 0 < parsedField lines "valor_cofins" ∨
       0 < parsedField lines "valor_csll" ∨ 0 < parsedField lines "valor_irrf" ∨
       0 < parsedField lines "valor_inss" ∨ issFlag lines = true)) ∧
    extract_data_from_pdf
      [["PIS", "0,00", "COFINS", "0,00", "CSLL", "0,00", "IRRF", "0,00",
        "INSS", "0,00", "ISS Retido", "2 - Nao", "Total do ISS", "100,00"]] = [] ∧
    extract_data_from_pdf [["ISS Retido", "1 - Sim"]] = [⟨0, 0, 0, 0, 0, 0⟩] := by
  refine ⟨?_, by decide, by decide⟩
  intro lines
  unfold processPage
  dsimp only
  split <;> simp_all

/-- C5:  The ISS-withheld flag is set exactly when the raw token captured
for the indicator field contains the character `'1'` (and is unset when
no token was captured), and the ISS amount stored in an emitted record is
the parsed ISS value when the flag is set and exactly `0.0` otherwise. -/
theorem iss_flag_and_value :
    (∀ lines tok, scanPage anchor_map lines "iss_retido_check" = some tok →
      (issFlag lines = true ↔ '1' ∈ tok.data)) ∧
    (∀ lines, scanPage anchor_map lines "iss_retido_check" = none →
      issFlag lines = false) ∧
    (∀ lines r, processPage lines = some r →
      r.iss = if issFlag lines then parsedField lines "valor_iss" else 0) := by
  refine ⟨?_, ?_, ?_⟩
  · intro lines tok h
    unfold issFlag
    rw [h]
    exact List.elem_iff
  · intro lines h
    unfold issFlag
    rw [h]
    rfl
  · intro lines r h
    unfold processPage at h
    dsimp only at h
    split at h
    · cases h
      rfl
    · simp at h

/-- Witness for C5: the flag-only page. -/
theorem iss_flag_and_value_witness :
    (issFlag ["ISS Retido", "1 - Sim"] = true ↔ '1' ∈ ("1 - Sim" : String).data) ∧
    issFlag ["PIS", "10,00"] = false ∧
    (⟨0, 0, 0, 0, 0, 0⟩ : Withholding).iss =
      (if issFlag ["ISS Retido", "1 - Sim"]
       then parsedField ["ISS Retido", "1 - Sim"] "valor_iss" else 0) :=
  ⟨iss_flag_and_value.1 _ "1 - Sim" (by decide),
   iss_flag_and_value.2.1 _ (by decide),
   iss_flag_and_value.2.2 _ _ (by decide)⟩

/-! ## Non-negativity (C9) -/

/-- A successful parse is non-negative: the alphabet has no sign. -/
lemma parseFloatQ_nonneg {cs : List Char} {q : ℚ} (h : parseFloatQ cs = some q) :
    0 ≤ q := by
  unfold parseFloatQ at h
  split at h
  · cases h
    unfold floatVal
    rw [Rat.mkRat_eq_div]
    positivity
  · simp at h

/-- `clean_currency` never returns a negative amount. -/
lemma clean_currency_nonneg (t : Option String) : 0 ≤ clean_currency t := by
  cases t with
  | none => exact le_refl 0
  | some s =>
    by_cases hs : s = ""
    · simp [clean_currency, hs]
    · cases hfr : firstRun s.data with
      | none => simp [clean_currency, hs, hfr]
      | some run =>
        have hcc : clean_currency (some s) =
            (parseFloatQ ((run.filter (fun c => c ≠ '.')).map toDotChar)).getD 0 := by
          simp [clean_currency, hs, hfr]
        rw [hcc]
        cases hp : parseFloatQ ((run.filter (fun c => c ≠ '.')).map toDotChar) with
        | none => simp
        | some q => simpa using parseFloatQ_nonneg hp

/-- The fields of an emitted record are the parsed amounts (with ISS
zeroed when the flag is unset). -/
lemma processPage_fields {lines : List String} {r : Withholding}
    (h : processPage lines = some r) :
    r = ⟨parsedField lines "valor_pis", parsedField lines "valor_cofins",
         parsedField lines "valor_csll", parsedField lines "valor_irrf",
         parsedField lines "valor_inss",
         if issFlag lines then parsedField lines "valor_iss" else 0⟩ := by
  unfold processPage at h
  dsimp only at h
  split at h
  · cases h
    rfl
  · simp at h

/-- Every field of every extracted record is non-negative. -/
lemma extracted_nonneg {pages : List (List String)} {r : Withholding}
    (hr : r ∈ extract_data_from_pdf pages) :
    0 ≤ r.pis ∧ 0 ≤ r.cofins ∧ 0 ≤ r.csll ∧ 0 ≤ r.irrf ∧ 0 ≤ r.inss ∧ 0 ≤ r.iss := by
  obtain ⟨lines, -, hp⟩ := List.mem_filterMap.mp hr
  rw [processPage_fields hp]
  refine ⟨clean_currency_nonneg _, clean_currency_nonneg _, clean_currency_nonneg _,
    clean_currency_nonneg _, clean_currency_nonneg _, ?_⟩
  dsimp only
  split
  · exact clean_currency_nonneg _
  · exact le_refl 0

/-- A sum of a pointwise non-negative projection is non-negative. -/
lemma sum_field_nonneg (dados : List Withholding) (f : Withholding → ℚ)
    (hf : ∀ r ∈ dados, 0 ≤ f r) : 0 ≤ (dados.map f).sum := by
  refine List.sum_nonneg ?_
  intro x hx
  obtain ⟨r, hr, rfl⟩ := List.mem_map.mp hx
  exact hf r hr

/-- C9:  Every numeric amount the pipeline produces is non-negative
(nets excepted): `clean_currency` is non-negative on every input, every
field of every extracted record is non-negative, and for non-negative
revenue every gross and withheld amount and the INSS total are
non-negative. -/
theorem pipeline_nonneg :
    (∀ t, 0 ≤ clean_currency t) ∧
    (∀ pages r, r ∈ extract_data_from_pdf pages →
      0 ≤ r.pis ∧ 0 ≤ r.cofins ∧ 0 ≤ r.csll ∧ 0 ≤ r.irrf ∧ 0 ≤ r.inss ∧ 0 ≤ r.iss) ∧
    (∀ pages fat, 0 ≤ fat →
      (∀ p ∈ (calcular_impostos_finais (extract_data_from_pdf pages) fat).1,
        0 ≤ p.2.valor_bruto ∧ 0 ≤ p.2.total_retido) ∧
      0 ≤ (calcular_impostos_finais (extract_data_from_pdf pages) fat).2) := by
  refine ⟨clean_currency_nonneg, fun pages r hr => extracted_nonneg hr, ?_⟩
  intro pages fat hfat
  have h1 : 0 ≤ ((extract_data_from_pdf pages).map (fun n => n.pis)).sum :=
    sum_field_nonneg _ _ (fun r hr => (extracted_nonneg hr).1)
  have h2 : 0 ≤ ((extract_data_from_pdf pages).map (fun n => n.cofins)).sum :=
    sum_field_nonneg _ _ (fun r hr => (extracted_nonneg hr).2.1)
  have h3 : 0 ≤ ((extract_data_from_pdf pages).map (fun n => n.csll)).sum :=
    sum_field_nonneg _ _ (fun r hr => (extracted_nonneg hr).2.2.1)
  have h4 : 0 ≤ ((extract_data_from_pdf pages).map (fun n => n.irrf)).sum :=
    sum_field_nonneg _ _ (fun r hr => (extracted_nonneg hr).2.2.2.1)
  have h5 : 0 ≤ ((extract_data_from_pdf pages).map (fun n => n.inss)).sum :=
    sum_field_nonneg _ _ (fun r hr => (extracted_nonneg hr).2.2.2.2.1)
  have h6 : 0 ≤ ((extract_data_from_pdf pages).map (fun n => n.iss)).sum :=
    sum_field_nonneg _ _ (fun r hr => (extracted_nonneg hr).2.2.2.2.2)
  constructor
  · intro p hp
    rw [calcular_eq] at hp
    simp only [List.mem_cons, List.not_mem_nil, or_false] at hp
    rcases hp with h | h | h | h | h <;> subst h
    · exact ⟨mul_nonneg hfat (by norm_num), h1⟩
    · exact ⟨mul_nonneg hfat (by norm_num), h2⟩
    · exact ⟨mul_nonneg hfat (by norm_num), h4⟩
    · exact ⟨mul_nonneg hfat (by norm_num), h3⟩
    · exact ⟨mul_nonneg hfat (by norm_num), h6⟩
  · rw [calcular_eq]
    exact h5

/-- Witness for C9: a concrete flag-only document at revenue 1. -/
theorem pipeline_nonneg_witness :
    (0 ≤ (⟨0, 0, 0, 0, 0, 0⟩ : Withholding).pis ∧
     0 ≤ (⟨0, 0, 0, 0, 0, 0⟩ : Withholding).cofins ∧
     0 ≤ (⟨0, 0, 0, 0, 0, 0⟩ : Withholding).csll ∧
     0 ≤ (⟨0, 0, 0, 0, 0, 0⟩ : Withholding).irrf ∧
     0 ≤ (⟨0, 0, 0, 0, 0, 0⟩ : Withholding).inss ∧
     0 ≤ (⟨0, 0, 0, 0, 0, 0⟩ : Withholding).iss) ∧
    0 ≤ (calcular_impostos_finais
      (extract_data_from_pdf [["ISS Retido", "1 - Sim"]]) 1).2 :=
  ⟨pipeline_nonneg.2.1 [["ISS Retido", "1 - Sim"]] ⟨0, 0, 0, 0, 0, 0⟩ (by decide),
   (pipeline_nonneg.2.2 [["ISS Retido", "1 - Sim"]] 1 (by decide)).2⟩

/-! ## Anchor-scan characterization (C6) -/

/-- Unfolding one anchor of the inner loop. -/
lemma scanStep_cons (ka : String × String) (rest : List (String × String))
    (lines : List String) (m : String → Option String) (i : Nat) :
    scanStep (ka :: rest) lines m i =
      scanStep rest lines
        (if matchLineAt lines ka.2 i
         then updateField m ka.1 (pyStrip (lines.getD (i + 1) ""))
         else m) i := by
  unfold scanStep
  rw [List.foldl_cons]

/-- The inner loop leaves keys it does not carry untouched. -/
lemma scanStep_not_mem {lines : List String} {i : Nat} {k : String} :
    ∀ (anchors : List (String × String)) (m : String → Option String),
      k ∉ anchors.map Prod.fst → scanStep anchors lines m i k = m k := by
  intro anchors
  induction anchors with
  | nil => intro m _; rfl
  | cons ka rest ih =>
    intro m hk
    simp only [List.map_cons, List.mem_cons, not_or] at hk
    rw [scanStep_cons, ih _ hk.2]
    split
    · exact if_neg hk.1
    · rfl

/-- With duplicate-free keys, the inner loop writes key `k` (whose anchor
is `a`) exactly when line `i` matches `a` and has a successor, recording
the stripped next line. -/
lemma scanStep_found {lines : List String} {i : Nat} {k a : String} :
    ∀ (anchors : List (String × String)) (m : String → Option String),
      (anchors.map Prod.fst).Nodup → (k, a) ∈ anchors →
      scanStep anchors lines m i k =
        if matchLineAt lines a i
        then some (pyStrip (lines.getD (i + 1) ""))
        else m k := by
  intro anchors
  induction anchors with
  | nil => intro m _ hka; exact absurd hka (List.not_mem_nil _)
  | cons ka rest ih =>
    intro m hnd hka
    simp only [List.map_cons, List.nodup_cons] at hnd
    rw [scanStep_cons]
    rcases List.mem_cons.mp hka with heq | hmem
    · subst heq
      have hk : k ∉ rest.map Prod.fst := hnd.1
      rw [scanStep_not_mem _ _ hk]
      split
      · exact if_pos rfl
      · rfl
    · have hkmem : k ∈ rest.map Prod.fst :=
        List.mem_map.mpr ⟨(k, a), hmem, rfl⟩
      have hk1 : k ≠ ka.1 := fun he => hnd.1 (he ▸ hkmem)
      rw [ih _ hnd.2 hmem]
      split
      · rfl
      · split
        · exact if_neg hk1
        · rfl

/-- Folding the outer loop over any index list: the value at key `k` is
determined by the *last* index in the list whose line matches `k`'s
anchor — last-match-wins. -/
lemma foldl_scan_lastMatch {lines : List String} {k a : String}
    {anchors : List (String × String)}
    (hnd : (anchors.map Prod.fst).Nodup) (hka : (k, a) ∈ anchors) :
    ∀ (L : List Nat) (m : String → Option String),
      (L.foldl (scanStep anchors lines) m) k =
        match (L.filter (matchLineAt lines a)).getLast? with
        | some i => some (pyStrip (lines.getD (i + 1) ""))
        | none => m k := by
  intro L
  induction L using List.reverseRecOn with
  | nil => intro m; rfl
  | append_singleton L i ih =>
    intro m
    rw [List.foldl_append, List.foldl_cons, List.foldl_nil,
      scanStep_found _ _ hnd hka, List.filter_append]
    by_cases hpi : matchLineAt lines a i
    · rw [if_pos hpi]
      have hlast : ((L.filter (matchLineAt lines a)) ++
          [i].filter (matchLineAt lines a)).getLast? = some i := by
        simp [List.filter, hpi]
      rw [hlast]
    · rw [if_neg hpi]
      have hfil : (L.filter (matchLineAt lines a)) ++ [i].filter (matchLineAt lines a)
          = L.filter (matchLineAt lines a) := by
        simp [List.filter, hpi]
      rw [hfil, ih]

/-- `invoice_data[k]` is exactly the spec's last-match resolution of `k`'s
anchor. -/
lemma scanPage_eq_lastMatchSpec {lines : List String} {k a : String}
    (hnd : (anchor_map.map Prod.fst).Nodup) (hka : (k, a) ∈ anchor_map) :
    scanPage anchor_map lines k = lastMatchSpec lines a := by
  unfold scanPage lastMatchSpec
  rw [foldl_scan_lastMatch hnd hka]
  cases h : ((List.range lines.length).filter (matchLineAt lines a)).getLast? with
  | none => rfl
  | some i => rfl

/-- C6:  For every page and anchor-map key, the recorded token is the
spec's description: an anchor matches line `i` iff the trimmed,
case-folded line equals the trimmed, case-folded anchor and line `i + 1`
exists, the trimmed line `i + 1` is recorded, and on multiple matches the
later one wins (`lastMatchSpec`); a label embedded mid-sentence does not
match, and a repeated label resolves to the last occurrence. -/
theorem anchor_last_match :
    (∀ (lines : List String) (k a : String), (k, a) ∈ anchor_map →
      scanPage anchor_map lines k = lastMatchSpec lines a) ∧
    scanPage anchor_map ["Some PIS here", "10,00"] "valor_pis" = none ∧
    scanPage anchor_map ["PIS", "10,00", " pis ", "20,00", "x"] "valor_pis"
      = some "20,00" := by
  refine ⟨?_, by decide, by decide⟩
  intro lines k a hka
  exact scanPage_eq_lastMatchSpec (by decide) hka

/-- Witness for C6: the `valor_pis` key on a two-line page. -/
theorem anchor_last_match_witness :
    scanPage anchor_map ["PIS", "5,00"] "valor_pis" =
      lastMatchSpec ["PIS", "5,00"] "PIS" :=
  anchor_last_match.1 ["PIS", "5,00"] "valor_pis" "PIS" (by decide)


end NFS
